import Mathlib

/-!
Verification development for the Football_API_V1 scraper (src/scraper.py and
src/app.py).  Both files contain near-duplicate implementations of the same
pipeline; where they differ, the embedding keeps two definitions, prefixed
`scraper` (src/scraper.py) and `app` (src/app.py).  Strings are modelled as
`List Char` (Python `str` with character-based `len`, slicing, containment).
-/

set_option maxRecDepth 4096

/-- ASCII lowercase test, as used on the characters appearing in URLs. -/
def isLowerAlpha (c : Char) : Bool := 'a' ≤ c && c ≤ 'z'

/-- ASCII uppercase test. -/
def isUpperAlpha (c : Char) : Bool := 'A' ≤ c && c ≤ 'Z'

/-- ASCII letter: models Python `str.isalpha` on the ASCII range. -/
def isAlphaChar (c : Char) : Bool := isLowerAlpha c || isUpperAlpha c

/-- ASCII lowering of one character: models Python `str.lower` per character. -/
def lowerChar (c : Char) : Char :=
  if isUpperAlpha c then Char.ofNat (c.toNat + 32) else c

/-- ASCII raising of one character: models Python `str.upper` per character. -/
def upperChar (c : Char) : Char :=
  if isLowerAlpha c then Char.ofNat (c.toNat - 32) else c

/-- Python `str.lower()` over the whole string (ASCII model). -/
def toLowerL (l : List Char) : List Char := l.map lowerChar

/-- Whitespace as stripped/split by Python `str.strip()` / `str.split()`. -/
def isSpaceChar (c : Char) : Bool := c == ' ' || c == '\t' || c == '\n' || c == '\r'

/-- Boolean prefix test on character lists. -/
def isPrefixL : List Char → List Char → Bool
  | [], _ => true
  | _ :: _, [] => false
  | a :: as, b :: bs => a == b && isPrefixL as bs

/-- Python `needle in hay` substring containment. -/
def containsL (needle : List Char) : List Char → Bool
  | [] => needle.isEmpty
  | c :: cs => isPrefixL needle (c :: cs) || containsL needle cs

/-- Python `str.title()`: a letter after a non-letter is uppercased, a letter
after a letter is lowercased, other characters pass through.  The Bool argument
records whether the previous character was a letter. -/
def titleAux : Bool → List Char → List Char
  | _, [] => []
  | prevAlpha, c :: cs =>
    (if isAlphaChar c then (if prevAlpha then lowerChar c else upperChar c) else c)
      :: titleAux (isAlphaChar c) cs

/-- Python `str.title()` on a whole string. -/
def titleCase (l : List Char) : List Char := titleAux false l

/-- Python `str.strip()`: drop whitespace from both ends. -/
def trimL (l : List Char) : List Char :=
  ((l.dropWhile isSpaceChar).reverse.dropWhile isSpaceChar).reverse

/-- Core of Python `str.split(sep)` for a non-empty separator `s :: ss`:
left-to-right, non-overlapping occurrences cut the string.  The `Nat` fuel
makes the recursion structural; `splitOnL` supplies `l.length`, which is
enough fuel because every recursive call consumes at least one character. -/
def splitOnFuel (s : Char) (ss : List Char) : Nat → List Char → List (List Char)
  | _, [] => [[]]
  | 0, l => [l]
  | Nat.succ fuel, c :: cs =>
    if isPrefixL (s :: ss) (c :: cs) then
      [] :: splitOnFuel s ss fuel (cs.drop ss.length)
    else
      match splitOnFuel s ss fuel cs with
      | [] => [[c]]
      | p :: ps => (c :: p) :: ps

/-- Python `str.split(sep)` (`sep = ""` excluded, as Python raises there; the
code only splits on non-empty separators). -/
def splitOnL (sep : List Char) (l : List Char) : List (List Char) :=
  match sep with
  | [] => [l]
  | s :: ss => splitOnFuel s ss l.length l

/-- Python `str.split()` with no argument: split on whitespace runs, dropping
empty words.  Fueled for structural recursion, as in `splitOnFuel`. -/
def wordsFuel : Nat → List Char → List (List Char)
  | _, [] => []
  | 0, l => [l]
  | Nat.succ fuel, c :: cs =>
    if isSpaceChar c then wordsFuel fuel cs
    else (c :: cs.takeWhile (fun x => !isSpaceChar x))
      :: wordsFuel fuel (cs.dropWhile (fun x => !isSpaceChar x))

/-- Python `str.split()` with no argument. -/
def wordsL (l : List Char) : List (List Char) := wordsFuel l.length l

/-- Python `' '.join(ws)`. -/
def joinWords (ws : List (List Char)) : List Char := List.intercalate [' '] ws

/-! ### SourceSelector: `_select_best_stream` (scraper.py 493-511, app.py 403-415) -/

/-- A stream candidate as produced by the detectors: `(source_type, url)`. -/
abbrev StreamSource := List Char × List Char

/-- Priority table of `_select_best_stream` in src/scraper.py (lines 499-505):
`priority.get(x[0], 999)`. -/
def scraperPriorityOf (k : List Char) : Nat :=
  if k = "m3u8_pattern".toList then 1
  else if k = "video_element".toList then 2
  else if k = "iframe".toList then 3
  else if k = "javascript".toList then 4
  else if k = "data_attribute".toList then 5
  else 999

/-- Priority table of `_select_best_stream` in src/app.py (lines 408-412):
only three kinds are listed; everything else falls to the default 999. -/
def appPriorityOf (k : List Char) : Nat :=
  if k = "m3u8_pattern".toList then 1
  else if k = "video_element".toList then 2
  else if k = "iframe".toList then 3
  else 999

/-- Stable insertion of one element into a key-sorted list: the new element
goes before the first element whose key is not smaller.  Since the new element
originates earlier in the input than everything already sorted, ties keep the
earlier element first, matching Python `sorted`'s stability. -/
def insertLE (key : StreamSource → Nat) (x : StreamSource) : List StreamSource → List StreamSource
  | [] => [x]
  | y :: ys => if key x ≤ key y then x :: y :: ys else y :: insertLE key x ys

/-- Stable sort by key, modelling Python `sorted(stream_sources, key=...)`. -/
def sortByKey (key : StreamSource → Nat) : List StreamSource → List StreamSource
  | [] => []
  | x :: xs => insertLE key x (sortByKey key xs)

/-- `_select_best_stream` (src/scraper.py 493-511): return `None` on the empty
list, otherwise stable-sort by priority and return the first element's URL. -/
def scraperSelectBestStream (sources : List StreamSource) : Option (List Char) :=
  if sources.isEmpty then none
  else ((sortByKey (fun x => scraperPriorityOf x.1) sources).head?).map Prod.snd

/-- `_select_best_stream` (src/app.py 403-415): same shape, smaller table. -/
def appSelectBestStream (sources : List StreamSource) : Option (List Char) :=
  if sources.isEmpty then none
  else ((sortByKey (fun x => appPriorityOf x.1) sources).head?).map Prod.snd

/-- The first element of the list attaining the minimal key: on ties the
earlier element wins.  Specification-side description of what "stable sort,
then take the head" computes. -/
def firstMinBy (key : StreamSource → Nat) : List StreamSource → Option StreamSource
  | [] => none
  | x :: xs =>
    match firstMinBy key xs with
    | none => some x
    | some y => if key x ≤ key y then some x else some y

theorem insertLE_head (key : StreamSource → Nat) (x : StreamSource) (s : List StreamSource) :
    (insertLE key x s).head? =
      match s.head? with
      | none => some x
      | some y => if key x ≤ key y then some x else some y := by
  cases s with
  | nil => rfl
  | cons y ys =>
    simp only [insertLE, List.head?]
    by_cases h : key x ≤ key y <;> simp [h]

theorem sortByKey_head (key : StreamSource → Nat) (l : List StreamSource) :
    (sortByKey key l).head? = firstMinBy key l := by
  induction l with
  | nil => rfl
  | cons x xs ih =>
    simp only [sortByKey, firstMinBy, insertLE_head, ih]

/-- C1.  Counterexample to the claimed priority table: the claim assigns
`javascript=4` and `data_attribute=5`, so on the candidate list
`[(data_attribute, a), (javascript, b)]` the claimed selector must return the
`javascript` URL `b`.  src/scraper.py does (third conjunct), but src/app.py's
`_select_best_stream` gives both kinds the default priority 999 and its stable
sort therefore returns the first-discovered `data_attribute` URL `a`. -/
theorem C1_counterexample :
    appPriorityOf "javascript".toList = 999 ∧
    appPriorityOf "data_attribute".toList = 999 ∧
    scraperSelectBestStream
      [("data_attribute".toList, "https://x/stream-a".toList),
       ("javascript".toList, "https://x/stream-b".toList)]
      = some "https://x/stream-b".toList ∧
    appSelectBestStream
      [("data_attribute".toList, "https://x/stream-a".toList),
       ("javascript".toList, "https://x/stream-b".toList)]
      = some "https://x/stream-a".toList := by
  decide

/-- C1 (amended).  Both `_select_best_stream` implementations return `none` on
the empty list and otherwise the URL of the first-discovered candidate of
minimal priority (stable sort, ties broken by discovery order).  scraper.py
uses the full claimed table (m3u8_pattern=1, video_element=2, iframe=3,
javascript=4, data_attribute=5, anything else 999); app.py's table stops at
iframe=3, so javascript and data_attribute fall into the unknown bucket 999. -/
theorem C1_amended_select_best :
    (∀ l, scraperSelectBestStream l
        = (firstMinBy (fun x => scraperPriorityOf x.1) l).map Prod.snd) ∧
    (∀ l, appSelectBestStream l
        = (firstMinBy (fun x => appPriorityOf x.1) l).map Prod.snd) ∧
    (scraperSelectBestStream [] = none ∧ appSelectBestStream [] = none ∧
      scraperPriorityOf "m3u8_pattern".toList = 1 ∧
      scraperPriorityOf "video_element".toList = 2 ∧
      scraperPriorityOf "iframe".toList = 3 ∧
      scraperPriorityOf "javascript".toList = 4 ∧
      scraperPriorityOf "data_attribute".toList = 5 ∧
      appPriorityOf "m3u8_pattern".toList = 1 ∧
      appPriorityOf "video_element".toList = 2 ∧
      appPriorityOf "iframe".toList = 3) ∧
    (∀ k, k ≠ "m3u8_pattern".toList → k ≠ "video_element".toList →
      k ≠ "iframe".toList → k ≠ "javascript".toList →
      k ≠ "data_attribute".toList → scraperPriorityOf k = 999) ∧
    (∀ k, k ≠ "m3u8_pattern".toList → k ≠ "video_element".toList →
      k ≠ "iframe".toList → appPriorityOf k = 999) := by
  refine ⟨?_, ?_, by decide, ?_, ?_⟩
  · intro l
    cases l with
    | nil => rfl
    | cons x xs =>
      simp [scraperSelectBestStream, sortByKey_head]
  · intro l
    cases l with
    | nil => rfl
    | cons x xs =>
      simp [appSelectBestStream, sortByKey_head]
  · intro k h1 h2 h3 h4 h5
    simp only [scraperPriorityOf]
    rw [if_neg h1, if_neg h2, if_neg h3, if_neg h4, if_neg h5]
  · intro k h1 h2 h3
    simp only [appPriorityOf]
    rw [if_neg h1, if_neg h2, if_neg h3]

/-- C1 witness: the amended characterization applied at concrete inputs. -/
theorem C1_amended_select_best_witness :
    scraperSelectBestStream
      [("iframe".toList, "https://x/e1".toList),
       ("m3u8_pattern".toList, "https://x/a.m3u8".toList)]
      = some "https://x/a.m3u8".toList ∧
    scraperPriorityOf "custom_kind".toList = 999 ∧
    appPriorityOf "data_attribute".toList = 999 := by
  have h := C1_amended_select_best
  refine ⟨?_, ?_, ?_⟩
  · rw [h.1]; decide
  · exact h.2.2.2.1 "custom_kind".toList (by decide) (by decide) (by decide)
      (by decide) (by decide)
  · exact h.2.2.2.2 "data_attribute".toList (by decide) (by decide) (by decide)

/-! ### StreamExtractor validation: `_is_stream_url` (scraper.py 483-491, app.py 393-401) -/

/-- Indicator substrings of `_is_stream_url` in src/scraper.py (line 488). -/
def scraperStreamIndicators : List (List Char) :=
  [".m3u8".toList, ".mp4".toList, "stream".toList, "live".toList,
   "hls".toList, "video".toList, "embed".toList]

/-- Indicator substrings of `_is_stream_url` in src/app.py (line 398): the
same list without `"embed"`. -/
def appStreamIndicators : List (List Char) :=
  [".m3u8".toList, ".mp4".toList, "stream".toList, "live".toList,
   "hls".toList, "video".toList]

/-- `_is_stream_url` body, shared by both files up to the indicator list:
reject when shorter than 10 characters (the `not url` guard is subsumed, an
empty string has length 0), otherwise accept iff the lowercased URL contains
some indicator. -/
def isStreamUrlWith (inds : List (List Char)) (url : List Char) : Bool :=
  if url.length < 10 then false
  else inds.any (fun i => containsL i (toLowerL url))

/-- `_is_stream_url` (src/scraper.py 483-491). -/
def scraperIsStreamUrl (url : List Char) : Bool :=
  isStreamUrlWith scraperStreamIndicators url

/-- `_is_stream_url` (src/app.py 393-401). -/
def appIsStreamUrl (url : List Char) : Bool :=
  isStreamUrlWith appStreamIndicators url

/-- C2.  Counterexample: `"https://a/embed"` has 15 characters and contains the
claimed indicator `"embed"` (and no other indicator), so the claim requires
`true`; src/scraper.py agrees, but src/app.py's `_is_stream_url` has no
`"embed"` indicator and returns `false`. -/
theorem C2_counterexample :
    10 ≤ "https://a/embed".toList.length ∧
    containsL "embed".toList (toLowerL "https://a/embed".toList) = true ∧
    scraperIsStreamUrl "https://a/embed".toList = true ∧
    appIsStreamUrl "https://a/embed".toList = false := by
  decide

/-- C2 (amended).  Both `_is_stream_url` implementations reject every URL
shorter than 10 characters; for longer URLs each accepts iff the lowercased
URL contains one of its own indicators — src/scraper.py's set is
`{.m3u8, .mp4, stream, live, hls, video, embed}`, src/app.py's set omits
`embed`. -/
theorem C2_amended_is_stream_url :
    (∀ url : List Char, url.length < 10 →
      scraperIsStreamUrl url = false ∧ appIsStreamUrl url = false) ∧
    (∀ url : List Char, 10 ≤ url.length →
      (scraperIsStreamUrl url = true ↔
        ∃ i ∈ scraperStreamIndicators, containsL i (toLowerL url) = true) ∧
      (appIsStreamUrl url = true ↔
        ∃ i ∈ appStreamIndicators, containsL i (toLowerL url) = true)) := by
  constructor
  · intro url h
    simp [scraperIsStreamUrl, appIsStreamUrl, isStreamUrlWith, h]
  · intro url h
    have h' : ¬ url.length < 10 := by omega
    constructor <;>
      simp [scraperIsStreamUrl, appIsStreamUrl, isStreamUrlWith, h', List.any_eq_true]

/-- C2 witness: the amended theorem applied at concrete URLs. -/
theorem C2_amended_is_stream_url_witness :
    scraperIsStreamUrl "x.m3u8".toList = false ∧
    appIsStreamUrl "https://host/live/x".toList = true := by
  have h := C2_amended_is_stream_url
  constructor
  · exact (h.1 "x.m3u8".toList (by decide)).1
  · exact ((h.2 "https://host/live/x".toList (by decide)).2).mpr
      ⟨"live".toList, by decide, by decide⟩

/-! ### MatchInfoParser: `_extract_match_info_from_url`
(scraper.py 262-288, app.py 262-285; the two copies are identical) -/

/-- The literal marker of the regex `/match-([^/]+)` . -/
def matchMarker : List Char := "/match-".toList

/-- `re.search(r'/match-([^/]+)', url)`: the group of the leftmost match.
A position matches when the literal marker is followed by at least one
non-`'/'` character; the greedy `[^/]+` then takes everything up to the next
`'/'` or the end of the string. -/
def findSlug : List Char → Option (List Char)
  | [] => none
  | c :: cs =>
    if isPrefixL matchMarker (c :: cs) then
      match (c :: cs).drop matchMarker.length with
      | [] => findSlug cs
      | r :: rs =>
        if r == '/' then findSlug cs
        else some ((r :: rs).takeWhile (fun x => x != '/'))
    else findSlug cs

/-- `.replace('-', ' ')` on the slug. -/
def replaceHyphens (l : List Char) : List Char :=
  l.map (fun c => if c == '-' then ' ' else c)

/-- The separator list tried in order (scraper.py line 272 and app.py line
270); the last separator is an en-dash surrounded by spaces. -/
def separatorsList : List (List Char) :=
  [" Vs ".toList, " vs ".toList, " - ".toList, " – ".toList]

/-- Output fields of `_extract_match_info_from_url`: the keys the function
may add to `match_data`. -/
structure MatchInfo where
  match_name : Option (List Char)
  home_team : Option (List Char)
  away_team : Option (List Char)
deriving DecidableEq

/-- The separator loop (scraper.py 272-279): for each separator in order, if
it occurs in `teams` and splitting on it yields exactly two parts, return the
stripped parts and stop; otherwise continue with the next separator. -/
def trySeparators : List (List Char) → List Char → Option (List Char × List Char)
  | [], _ => none
  | sep :: rest, teams =>
    if containsL sep teams then
      match splitOnL sep teams with
      | [p0, p1] => some (trimL p0, trimL p1)
      | _ => trySeparators rest teams
    else trySeparators rest teams

/-- `_extract_match_info_from_url` (scraper.py 262-288 = app.py 262-285):
slug → `replace('-', ' ')` → `.title()` → separator loop, with the
`for`/`else` fallback splitting the word list at `len(words) // 2` when no
separator produced a two-part split and there are at least two words. -/
def extractMatchInfoFromUrl (url : List Char) : MatchInfo :=
  match findSlug url with
  | none => ⟨none, none, none⟩
  | some slug =>
    let teams := titleCase (replaceHyphens slug)
    match trySeparators separatorsList teams with
    | some (h, a) => ⟨some teams, some h, some a⟩
    | none =>
      let ws := wordsL teams
      if 2 ≤ ws.length then
        ⟨some teams, some (joinWords (ws.take (ws.length / 2))),
          some (joinWords (ws.drop (ws.length / 2)))⟩
      else ⟨some teams, none, none⟩

theorem splitOnFuel_not_contains (s : Char) (ss : List Char) :
    ∀ fuel l, containsL (s :: ss) l = false → l.length ≤ fuel →
      splitOnFuel s ss fuel l = [l] := by
  intro fuel
  induction fuel with
  | zero =>
    intro l _ hlen
    cases l with
    | nil => rfl
    | cons c cs => simp at hlen
  | succ fuel ih =>
    intro l h hlen
    cases l with
    | nil => rfl
    | cons c cs =>
      simp only [containsL, Bool.or_eq_false_iff] at h
      have hc : cs.length ≤ fuel := by simp at hlen; omega
      simp [splitOnFuel, h.1, ih cs h.2 hc]

theorem containsL_nil_true (l : List Char) : containsL [] l = true := by
  cases l <;> simp [containsL, isPrefixL]

theorem splitOnL_not_contains (sep l : List Char) (h : containsL sep l = false) :
    splitOnL sep l = [l] := by
  cases sep with
  | nil => rw [containsL_nil_true] at h; cases h
  | cons s ss => exact splitOnFuel_not_contains s ss l.length l h (Nat.le_refl _)

/-- Specification-side description of the separator loop: the first separator
in precedence order whose split yields exactly two parts wins, and the two
stripped parts become the team names. -/
def firstTwoPartSplit (teams : List Char) : Option (List Char × List Char) :=
  match separatorsList.find? (fun sep => (splitOnL sep teams).length == 2) with
  | none => none
  | some sep =>
    match splitOnL sep teams with
    | [p0, p1] => some (trimL p0, trimL p1)
    | _ => none

theorem trySeparators_eq_find (teams : List Char) : ∀ seps : List (List Char),
    trySeparators seps teams =
      match seps.find? (fun sep => (splitOnL sep teams).length == 2) with
      | none => none
      | some sep =>
        match splitOnL sep teams with
        | [p0, p1] => some (trimL p0, trimL p1)
        | _ => none := by
  intro seps
  induction seps with
  | nil => rfl
  | cons sep rest ih =>
    rcases hs : splitOnL sep teams with _ | ⟨p0, _ | ⟨p1, _ | ⟨p2, ps⟩⟩⟩
    · have hb : ((splitOnL sep teams).length == 2) = false := by rw [hs]; rfl
      by_cases hc : containsL sep teams = true
      · simp only [trySeparators, hc, if_true, hs, List.find?, hb]
        exact ih
      · simp only [trySeparators, hc, if_false, List.find?, hb]
        exact ih
    · have hb : ((splitOnL sep teams).length == 2) = false := by rw [hs]; rfl
      by_cases hc : containsL sep teams = true
      · simp only [trySeparators, hc, if_true, hs, List.find?, hb]
        exact ih
      · simp only [trySeparators, hc, if_false, List.find?, hb]
        exact ih
    · have hcont : containsL sep teams = true := by
        by_contra hc
        have hc' : containsL sep teams = false := by
          revert hc; cases containsL sep teams <;> simp
        rw [splitOnL_not_contains sep teams hc'] at hs
        simp at hs
      have hb : ((splitOnL sep teams).length == 2) = true := by rw [hs]; rfl
      simp [trySeparators, hcont, hs, List.find?]
    · have hb : ((splitOnL sep teams).length == 2) = false := by
        rw [hs]; simp only [List.length_cons, beq_eq_false_iff_ne]; omega
      by_cases hc : containsL sep teams = true
      · simp only [trySeparators, hc, if_true, hs, List.find?, hb]
        exact ih
      · simp only [trySeparators, hc, if_false, List.find?, hb]
        exact ih

theorem trySeparators_none_of_not_contains (teams : List Char) :
    ∀ seps : List (List Char), (∀ sep ∈ seps, containsL sep teams = false) →
      trySeparators seps teams = none := by
  intro seps
  induction seps with
  | nil => intro _; rfl
  | cons sep rest ih =>
    intro h
    have h1 : containsL sep teams = false := h sep (List.mem_cons_self _ _)
    simp only [trySeparators, h1, if_false]
    exact ih (fun s hs => h s (List.mem_cons_of_mem _ hs))

/-- C4.  Counterexample: the URL `.../game/match-x-vs-` has slug `x-vs-`,
whose transformed form `"X Vs "` contains the recognized separator `" Vs "`,
yet the split produces an empty away team — the code stores `parts[1].strip()`
without checking non-emptiness, so the claim's "exactly two non-empty team
names" fails. -/
theorem C4_counterexample :
    containsL " Vs ".toList (titleCase (replaceHyphens "x-vs-".toList)) = true ∧
    findSlug "https://www.camel1.live/game/match-x-vs-".toList = some "x-vs-".toList ∧
    (extractMatchInfoFromUrl
      "https://www.camel1.live/game/match-x-vs-".toList).home_team = some "X".toList ∧
    (extractMatchInfoFromUrl
      "https://www.camel1.live/game/match-x-vs-".toList).away_team = some [] := by
  decide

/-- C4 (amended).  For every URL with a slug, whenever some separator in the
precedence order `" Vs "`, `" vs "`, `" - "`, `" – "` splits the transformed
slug into exactly two parts, the first such separator wins (separators that
occur but split into a different number of parts are skipped), and the two
stripped parts — which may be empty — become `home_team` and `away_team`. -/
theorem C4_amended_separator_split :
    ∀ url slug p0 p1 : List Char, findSlug url = some slug →
      firstTwoPartSplit (titleCase (replaceHyphens slug)) = some (p0, p1) →
      extractMatchInfoFromUrl url =
        ⟨some (titleCase (replaceHyphens slug)), some p0, some p1⟩ := by
  intro url slug p0 p1 hslug hsplit
  unfold firstTwoPartSplit at hsplit
  have htry : trySeparators separatorsList (titleCase (replaceHyphens slug))
      = some (p0, p1) := by
    rw [trySeparators_eq_find]
    exact hsplit
  simp only [extractMatchInfoFromUrl, hslug, htry]

/-- C4 witness: the amended theorem applied to a concrete URL. -/
theorem C4_amended_separator_split_witness :
    extractMatchInfoFromUrl
      "https://www.camel1.live/game/match-alpha-vs-beta".toList =
      ⟨some "Alpha Vs Beta".toList, some "Alpha".toList, some "Beta".toList⟩ := by
  have h := C4_amended_separator_split
    "https://www.camel1.live/game/match-alpha-vs-beta".toList
    "alpha-vs-beta".toList "Alpha".toList "Beta".toList (by decide) (by decide)
  rw [h]
  decide

/-- C5.  When the transformed slug contains none of the separator tokens and
has at least two words, the team split is the floor-midpoint rule: home is the
join of the first `n / 2` words, away the join of the rest (so for odd `n` the
extra word goes to the away side). -/
theorem C5_midpoint_fallback :
    ∀ url slug : List Char, findSlug url = some slug →
      (∀ sep ∈ separatorsList,
        containsL sep (titleCase (replaceHyphens slug)) = false) →
      2 ≤ (wordsL (titleCase (replaceHyphens slug))).length →
      extractMatchInfoFromUrl url =
        ⟨some (titleCase (replaceHyphens slug)),
         some (joinWords ((wordsL (titleCase (replaceHyphens slug))).take
           ((wordsL (titleCase (replaceHyphens slug))).length / 2))),
         some (joinWords ((wordsL (titleCase (replaceHyphens slug))).drop
           ((wordsL (titleCase (replaceHyphens slug))).length / 2)))⟩ := by
  intro url slug hslug hnosep hwords
  have hnone := trySeparators_none_of_not_contains
    (titleCase (replaceHyphens slug)) separatorsList hnosep
  simp only [extractMatchInfoFromUrl, hslug, hnone]
  rw [if_pos hwords]

/-- C5 witness: three words split as 1 + 2, the extra word on the away side. -/
theorem C5_midpoint_fallback_witness :
    extractMatchInfoFromUrl
      "https://www.camel1.live/game/match-alpha-beta-gamma".toList =
      ⟨some "Alpha Beta Gamma".toList, some "Alpha".toList,
       some "Beta Gamma".toList⟩ := by
  have h := C5_midpoint_fallback
    "https://www.camel1.live/game/match-alpha-beta-gamma".toList
    "alpha-beta-gamma".toList (by decide) (by decide) (by decide)
  rw [h]
  decide

/-- C10.  A single-word slug with no separator: `match_name` is set to the
capitalized word but no team fields are added. -/
theorem C10_single_word :
    ∀ url slug : List Char, findSlug url = some slug →
      (∀ sep ∈ separatorsList,
        containsL sep (titleCase (replaceHyphens slug)) = false) →
      (wordsL (titleCase (replaceHyphens slug))).length = 1 →
      extractMatchInfoFromUrl url =
        ⟨some (titleCase (replaceHyphens slug)), none, none⟩ := by
  intro url slug hslug hnosep hwords
  have hnone := trySeparators_none_of_not_contains
    (titleCase (replaceHyphens slug)) separatorsList hnosep
  have hlt : ¬ 2 ≤ (wordsL (titleCase (replaceHyphens slug))).length := by omega
  simp only [extractMatchInfoFromUrl, hslug, hnone]
  rw [if_neg hlt]

/-- C10 witness: the theorem applied to a single-word slug. -/
theorem C10_single_word_witness :
    extractMatchInfoFromUrl
      "https://www.camel1.live/game/match-liverpool".toList =
      ⟨some "Liverpool".toList, none, none⟩ := by
  have h := C10_single_word
    "https://www.camel1.live/game/match-liverpool".toList
    "liverpool".toList (by decide) (by decide) (by decide)
  rw [h]
  decide

/-! ### TTLCache: `get_cached_or_scrape` (scraper.py 114-126 = app.py 111-122) -/

/-- The `self.cache` dict, modelled as an association list of
`(key, (value, created_at))`; `cacheStore` prepends, and `cacheLookup` takes
the most recent entry, giving dict-assignment overwrite semantics.
Timestamps are `Int` seconds (`datetime.now()` differences compared against
the `timedelta` TTL). -/
def cacheLookup {V : Type} : List (List Char × V × Int) → List Char → Option (V × Int)
  | [], _ => none
  | (k, v, t) :: rest, key => if k = key then some (v, t) else cacheLookup rest key

/-- `self.cache[key] = (data, now)`. -/
def cacheStore {V : Type} (cache : List (List Char × V × Int)) (key : List Char)
    (v : V) (t : Int) : List (List Char × V × Int) :=
  (key, v, t) :: cache

/-- `get_cached_or_scrape(key, scraper_func)`: if a cache entry exists and
`now - timestamp < ttl`, return it; otherwise call the producer, store the
result with the current time, and return it.  The returned `Bool` records
whether the producer was invoked. -/
def getCachedOrScrape {V : Type} (ttl now : Int) (cache : List (List Char × V × Int))
    (key : List Char) (producer : Unit → V) :
    V × List (List Char × V × Int) × Bool :=
  match cacheLookup cache key with
  | some (v, t) =>
    if now - t < ttl then (v, cache, false)
    else (producer (), cacheStore cache key (producer ()) now, true)
  | none => (producer (), cacheStore cache key (producer ()) now, true)

theorem getCachedOrScrape_invoked {V : Type} (ttl now : Int)
    (cache : List (List Char × V × Int)) (key : List Char) (p : Unit → V)
    (h : (getCachedOrScrape ttl now cache key p).2.2 = true) :
    getCachedOrScrape ttl now cache key p
      = (p (), cacheStore cache key (p ()) now, true) := by
  cases hl : cacheLookup cache key with
  | none => simp [getCachedOrScrape, hl]
  | some vt =>
    obtain ⟨v, t⟩ := vt
    by_cases hf : now - t < ttl
    · simp [getCachedOrScrape, hl, hf] at h
    · simp [getCachedOrScrape, hl, hf]

theorem cacheLookup_store {V : Type} (cache : List (List Char × V × Int))
    (key : List Char) (v : V) (t : Int) :
    cacheLookup (cacheStore cache key v t) key = some (v, t) := by
  simp [cacheLookup, cacheStore]

/-- C3.  The TTL cache contract of `get_cached_or_scrape`: a fresh entry is
returned without invoking the producer; a missing or stale entry makes the
producer run exactly once and the result is stored under the current
timestamp, overwriting the visible entry; a second call on the same key
within the TTL window after a producing call returns the stored value without
a second invocation; and after the TTL has elapsed the producer runs again
and the stored value is overwritten. -/
theorem C3_ttl_cache :
    (∀ (V : Type) (ttl now : Int) cache key (p : Unit → V) v t,
      cacheLookup cache key = some (v, t) → now - t < ttl →
      getCachedOrScrape ttl now cache key p = (v, cache, false)) ∧
    (∀ (V : Type) (ttl now : Int) cache key (p : Unit → V),
      cacheLookup cache key = none →
      getCachedOrScrape ttl now cache key p
        = (p (), cacheStore cache key (p ()) now, true)) ∧
    (∀ (V : Type) (ttl now : Int) cache key (p : Unit → V) v t,
      cacheLookup cache key = some (v, t) → ¬ now - t < ttl →
      getCachedOrScrape ttl now cache key p
        = (p (), cacheStore cache key (p ()) now, true) ∧
      cacheLookup (cacheStore cache key (p ()) now) key = some (p (), now)) ∧
    (∀ (V : Type) (ttl now1 now2 : Int) cache key (p1 p2 : Unit → V),
      (getCachedOrScrape ttl now1 cache key p1).2.2 = true →
      now2 - now1 < ttl →
      getCachedOrScrape ttl now2 (getCachedOrScrape ttl now1 cache key p1).2.1 key p2
        = ((getCachedOrScrape ttl now1 cache key p1).1,
           (getCachedOrScrape ttl now1 cache key p1).2.1, false)) := by
  refine ⟨?_, ?_, ?_, ?_⟩
  · intro V ttl now cache key p v t hl hf
    simp [getCachedOrScrape, hl, hf]
  · intro V ttl now cache key p hl
    simp [getCachedOrScrape, hl]
  · intro V ttl now cache key p v t hl hf
    exact ⟨by simp [getCachedOrScrape, hl, hf], cacheLookup_store cache key (p ()) now⟩
  · intro V ttl now1 now2 cache key p1 p2 hb hf
    rw [getCachedOrScrape_invoked ttl now1 cache key p1 hb]
    simp [getCachedOrScrape, cacheLookup_store, hf]

/-- C3 witness: the contract applied at concrete values (TTL 300; a hit 100
seconds after the stored timestamp, then a stale call 400 seconds after). -/
theorem C3_ttl_cache_witness :
    getCachedOrScrape 300 100 [("home_matches".toList, 7, 0)] "home_matches".toList
      (fun _ => 9) = (7, [("home_matches".toList, 7, 0)], false) ∧
    getCachedOrScrape 300 400 [("home_matches".toList, 7, 0)] "home_matches".toList
      (fun _ => 9)
      = (9, ("home_matches".toList, 9, 400) :: [("home_matches".toList, 7, 0)], true) := by
  have h := C3_ttl_cache
  constructor
  · exact h.1 Nat 300 100 [("home_matches".toList, 7, 0)] "home_matches".toList
      (fun _ => 9) 7 0 (by decide) (by decide)
  · exact (h.2.2.1 Nat 300 400 [("home_matches".toList, 7, 0)] "home_matches".toList
      (fun _ => 9) 7 0 (by decide) (by decide)).1

/-! ### ScrapePipeline: `scrape_match_page` and the single-match routes
(scraper.py 219-260, 617-688; app.py 225-260, 493-558) -/

/-- The keys a `match_data` dict may carry.  `fallback` models the
`'fallback': True` flag of src/app.py's `_fallback_home_matches`; absent
optional keys are `none`. -/
structure MatchRecord where
  match_url : List Char
  match_name : Option (List Char)
  home_team : Option (List Char)
  away_team : Option (List Char)
  stream_url : Option (List Char)
  status : Option (List Char)
  home_score : Option (List Char)
  away_score : Option (List Char)
  home_logo : Option (List Char)
  away_logo : Option (List Char)
  fallback : Bool
  error : Option (List Char)
deriving DecidableEq

/-- The page-dependent data gathered inside the `try` block of
`scrape_match_page`: the selected stream URL and the best-effort details
from `_extract_match_details`. -/
structure PageDetails where
  stream_url : Option (List Char)
  status : Option (List Char)
  home_score : Option (List Char)
  away_score : Option (List Char)
  home_logo : Option (List Char)
  away_logo : Option (List Char)
deriving DecidableEq

/-- Outcome of the driver/network interaction of one match-page scrape:
either the page loads and the detectors produce `PageDetails`, or an
exception with message `msg` is raised inside the `try` block (modelled at
the fetch, before the URL-derived fields are written). -/
inductive ScrapeOutcome where
  | success (details : PageDetails)
  | failure (msg : List Char)
deriving DecidableEq

/-- `scrape_match_page(url)` (scraper.py 219-260 = app.py 225-260):
`match_data = {'match_url': url}` is built before the `try` block; on success
the URL-derived fields and page details are filled in; on an exception the
`except` clause stores `str(e)` under `'error'` and the partial dict is
returned — the function itself never raises. -/
def scrapeMatchPage (url : List Char) (outcome : ScrapeOutcome) : MatchRecord :=
  match outcome with
  | .failure msg =>
    ⟨url, none, none, none, none, none, none, none, none, none, false, some msg⟩
  | .success d =>
    let info := extractMatchInfoFromUrl url
    ⟨url, info.match_name, info.home_team, info.away_team, d.stream_url,
     d.status, d.home_score, d.away_score, d.home_logo, d.away_logo,
     false, none⟩

/-- The body a single-match route returns. -/
inductive RouteResponse where
  | clientError (msg : List Char)
  | okMatch (m : MatchRecord)
  | okStream (stream_url : Option (List Char)) (match_url : List Char)
deriving DecidableEq

/-- `/api/match` (app.py 493-524): `url = request.args.get('url')` is `None`
when the parameter is missing and the empty string when supplied empty; both
are falsy, so `if not url` rejects them with a 400 error before any fetch. -/
def getMatchRoute (urlParam : Option (List Char)) (outcome : ScrapeOutcome) :
    RouteResponse :=
  match urlParam with
  | none => .clientError "URL parameter is required".toList
  | some url =>
    if url.isEmpty then .clientError "URL parameter is required".toList
    else .okMatch (scrapeMatchPage url outcome)

/-- `/api/stream` (app.py 526-558): same guard; the response carries
`match_data.get('stream_url')` and the requested URL. -/
def getStreamRoute (urlParam : Option (List Char)) (outcome : ScrapeOutcome) :
    RouteResponse :=
  match urlParam with
  | none => .clientError "URL parameter is required".toList
  | some url =>
    if url.isEmpty then .clientError "URL parameter is required".toList
    else .okStream (scrapeMatchPage url outcome).stream_url url

/-- C6.  `scrape_match_page` always returns a record with `match_url` set to
the requested URL; on any internal failure the record carries the error
message instead of an exception escaping; and a missing URL parameter is
rejected by both single-match routes with the same error response whatever
the scrape outcome would have been — i.e. before any fetch is attempted. -/
theorem C6_no_exception_escape :
    (∀ url outcome, (scrapeMatchPage url outcome).match_url = url) ∧
    (∀ url msg, (scrapeMatchPage url (.failure msg)).error = some msg) ∧
    (∀ o1 o2, getMatchRoute none o1 = getMatchRoute none o2) ∧
    (∀ outcome, getMatchRoute none outcome
      = .clientError "URL parameter is required".toList) ∧
    (∀ outcome, getStreamRoute none outcome
      = .clientError "URL parameter is required".toList) := by
  refine ⟨fun url outcome => ?_, fun url msg => rfl, fun o1 o2 => rfl,
    fun o => rfl, fun o => rfl⟩
  cases outcome <;> rfl

/-- C9.  Degraded scrape results are cached like successes: when the producer
is a failing `scrape_match_page`, the error record is returned and stored
under the key, and any later call for the same key within the TTL window
returns that cached error record without invoking its producer. -/
theorem C9_error_records_cached :
    ∀ (ttl now1 now2 : Int) cache key url msg (p2 : Unit → MatchRecord),
      cacheLookup cache key = none →
      now2 - now1 < ttl →
      (getCachedOrScrape ttl now1 cache key
          (fun _ => scrapeMatchPage url (.failure msg))).1.error = some msg ∧
      getCachedOrScrape ttl now1 cache key
          (fun _ => scrapeMatchPage url (.failure msg))
        = (scrapeMatchPage url (.failure msg),
           cacheStore cache key (scrapeMatchPage url (.failure msg)) now1, true) ∧
      getCachedOrScrape ttl now2
          (cacheStore cache key (scrapeMatchPage url (.failure msg)) now1) key p2
        = (scrapeMatchPage url (.failure msg),
           cacheStore cache key (scrapeMatchPage url (.failure msg)) now1, false) := by
  intro ttl now1 now2 cache key url msg p2 hl hf
  refine ⟨?_, ?_, ?_⟩
  · simp [getCachedOrScrape, hl, scrapeMatchPage]
  · simp [getCachedOrScrape, hl]
  · simp [getCachedOrScrape, cacheLookup_store, hf]

/-- C9 witness: a failing scrape cached at time 0 is served from the cache at
time 100 (TTL 300) with the error intact and no second invocation. -/
theorem C9_error_records_cached_witness :
    (getCachedOrScrape 300 0 [] "match_1".toList
      (fun _ => scrapeMatchPage "https://s/match-a".toList
        (.failure "timeout".toList))).1.error = some "timeout".toList ∧
    (getCachedOrScrape 300 100
      (cacheStore [] "match_1".toList
        (scrapeMatchPage "https://s/match-a".toList (.failure "timeout".toList)) 0)
      "match_1".toList
      (fun _ => scrapeMatchPage "https://s/match-a".toList
        (.success ⟨none, none, none, none, none, none⟩))).2.2 = false := by
  have h := C9_error_records_cached 300 0 100 [] "match_1".toList
    "https://s/match-a".toList "timeout".toList
    (fun _ => scrapeMatchPage "https://s/match-a".toList
      (.success ⟨none, none, none, none, none, none⟩))
    (by decide) (by decide)
  exact ⟨h.1, by rw [h.2.2]⟩

/-! ### Homepage scrape: `scrape_home_matches` (scraper.py 128-174,
app.py 124-193) -/

/-- Outcome of the homepage load: the discovered match links, or an
exception raised inside the `try` block. -/
inductive HomeOutcome where
  | success (links : List (List Char))
  | failure (msg : List Char)
deriving DecidableEq

/-- `scrape_home_matches` (src/scraper.py 128-174): on success every
discovered link is scraped in order (`scrape_match_page` always returns a
truthy dict, so each is appended); on an exception the error is logged and
the `matches` list built so far — empty when the homepage load itself fails —
is returned.  No cap is applied in this file. -/
def scraperScrapeHomeMatches (outcome : HomeOutcome)
    (perLink : List Char → ScrapeOutcome) : List MatchRecord :=
  match outcome with
  | .failure _ => []
  | .success links => links.map (fun l => scrapeMatchPage l (perLink l))

/-- `_extract_teams_from_url` (src/app.py 195-204): the title-cased slug, or
the literal `"Unknown Match"` when the regex finds no slug. -/
def appExtractTeamsFromUrl (url : List Char) : List Char :=
  match findSlug url with
  | some slug => titleCase (replaceHyphens slug)
  | none => "Unknown Match".toList

/-- `_fallback_home_matches` (src/app.py 172-193): a static `requests.get` of
the homepage; `staticLinks` is `none` when that fetch raises (the function
then returns `[]`) and otherwise carries the regex captures
`href=["'](/game/match-[^"']+)["']`, root-relative by construction.  The
first three become records flagged `'fallback': True`, with no error field
and no stream URL. -/
def appFallbackHomeMatches (staticLinks : Option (List (List Char))) :
    List MatchRecord :=
  match staticLinks with
  | none => []
  | some links =>
    (links.take 3).map (fun link =>
      ⟨"https://www.camel1.live".toList ++ link,
       some (appExtractTeamsFromUrl ("https://www.camel1.live".toList ++ link)),
       none, none, none, none, none, none, none, none, true, none⟩)

/-- `scrape_home_matches` (src/app.py 124-170): like the scraper.py version
but capped at 3 links, and the `except` clause replaces the batch with
`_fallback_home_matches()`. -/
def appScrapeHomeMatches (outcome : HomeOutcome)
    (perLink : List Char → ScrapeOutcome)
    (staticLinks : Option (List (List Char))) : List MatchRecord :=
  match outcome with
  | .failure _ => appFallbackHomeMatches staticLinks
  | .success links => (links.take 3).map (fun l => scrapeMatchPage l (perLink l))

/-- C7.  Counterexample: when the homepage fetch fails, src/scraper.py's
`scrape_home_matches` returns the empty batch — not one placeholder-named
degraded record — and src/app.py's version returns the empty batch as well
when its static fallback fetch also fails.  No `degraded` flag and no fixed
placeholder `match_name` exist anywhere on this path. -/
theorem C7_counterexample :
    scraperScrapeHomeMatches (.failure "connection refused".toList)
      (fun _ => .failure []) = [] ∧
    appScrapeHomeMatches (.failure "connection refused".toList)
      (fun _ => .failure []) none = [] := by
  exact ⟨rfl, rfl⟩

/-- C7 (amended).  On homepage-fetch failure, scraper.py returns `[]`;
app.py falls back to a static fetch: the result is `[]` if that fetch also
fails, and otherwise at most three records built from the regex-captured
links, each flagged `fallback := true` with no error and no stream URL, and
named via `_extract_teams_from_url`.  Nothing raises on this path. -/
theorem C7_amended_home_failure :
    (∀ msg perLink, scraperScrapeHomeMatches (.failure msg) perLink = []) ∧
    (∀ msg perLink, appScrapeHomeMatches (.failure msg) perLink none = []) ∧
    (∀ msg perLink links,
      appScrapeHomeMatches (.failure msg) perLink (some links)
        = appFallbackHomeMatches (some links)) ∧
    (∀ links r, r ∈ appFallbackHomeMatches (some links) →
      r.fallback = true ∧ r.error = none ∧ r.stream_url = none ∧
      r.match_name = some (appExtractTeamsFromUrl r.match_url)) ∧
    (∀ links, (appFallbackHomeMatches (some links)).length ≤ 3) := by
  refine ⟨fun msg perLink => rfl, fun msg perLink => rfl,
    fun msg perLink links => rfl, ?_, ?_⟩
  · intro links r hr
    simp only [appFallbackHomeMatches, List.mem_map] at hr
    obtain ⟨link, _, rfl⟩ := hr
    exact ⟨rfl, rfl, rfl, rfl⟩
  · intro links
    simp [appFallbackHomeMatches, List.length_take]

/-- C7 witness: the amended theorem applied to one captured fallback link. -/
theorem C7_amended_home_failure_witness :
    (⟨"https://www.camel1.live/game/match-liverpool".toList,
      some "Liverpool".toList, none, none, none, none, none, none, none, none,
      true, none⟩ : MatchRecord).fallback = true ∧
    (appFallbackHomeMatches (some ["/game/match-liverpool".toList])).length ≤ 3 := by
  have h := C7_amended_home_failure
  constructor
  · exact (h.2.2.2.1 ["/game/match-liverpool".toList]
      ⟨"https://www.camel1.live/game/match-liverpool".toList,
       some "Liverpool".toList, none, none, none, none, none, none, none, none,
       true, none⟩ (by decide)).1
  · exact h.2.2.2.2 ["/game/match-liverpool".toList]

/-! ### URL resolution across the detectors (C8)
`_find_match_links` (scraper.py 176-217), `_check_m3u8_sources`
(scraper.py 427-448), `_check_iframes` (scraper.py 410-425),
`_check_javascript_sources` (scraper.py 450-467),
`_check_data_attributes` (scraper.py 469-481),
`extract_stream_url_enhanced` (scraper.py 347-380) -/

/-- The hardcoded origin prefixed to root-relative hrefs. -/
def siteOrigin : List Char := "https://www.camel1.live".toList

/-- `_find_match_links` normalization (scraper.py 184-193), applied to the
harvested href attribute values: keep hrefs containing `/game/` or `/match-`,
prefixing the site origin when the href starts with `/`.  The set-based
dedup of the source is not modelled; strategy 2 (lines 195-215) applies the
identical normalization without the substring filter. -/
def findMatchLinksNorm (hrefs : List (List Char)) : List (List Char) :=
  hrefs.filterMap (fun href =>
    if containsL "/game/".toList href || containsL "/match-".toList href then
      some (if isPrefixL ['/'] href then siteOrigin ++ href else href)
    else none)

/-- Helper for `urljoin`: locate the first `://` in the base URL, returning
the characters before it and the characters after. -/
def originOfAux : List Char → Option (List Char × List Char)
  | [] => none
  | c :: cs =>
    if isPrefixL "://".toList (c :: cs) then some ([], (c :: cs).drop 3)
    else
      match originOfAux cs with
      | none => none
      | some (p, r) => some (c :: p, r)

/-- The `scheme://netloc` part of a base URL. -/
def originOf (base : List Char) : List Char :=
  match originOfAux base with
  | some (scheme, rest) =>
    scheme ++ "://".toList ++ rest.takeWhile (fun x => x != '/')
  | none => []

/-- Python `urljoin(base, rel)` for the only case the code exercises: `rel`
starting with `/` replaces the path of `base`, keeping `scheme://netloc`. -/
def urljoinRootRel (base rel : List Char) : List Char := originOf base ++ rel

/-- `_check_m3u8_sources` post-processing (scraper.py 439-447), applied to
the regex captures of the four patterns at lines 432-437: captures starting
with `/` are resolved with `urljoin(base_url, match)`, then everything is
filtered by `_is_stream_url` and tagged `m3u8_pattern`. -/
def scraperCheckM3u8Sources (baseUrl : List Char) (captures : List (List Char)) :
    List StreamSource :=
  captures.filterMap (fun m =>
    let m' := if isPrefixL ['/'] m then urljoinRootRel baseUrl m else m
    if scraperIsStreamUrl m' then some ("m3u8_pattern".toList, m') else none)

/-- `_check_data_attributes` (scraper.py 469-481), applied to the harvested
`data-src`/`data-url`/`data-stream` attribute values: each value passing
`_is_stream_url` is appended verbatim — no resolution against the page URL. -/
def scraperCheckDataAttributes (vals : List (List Char)) : List StreamSource :=
  vals.filterMap (fun v =>
    if scraperIsStreamUrl v then some ("data_attribute".toList, v) else none)

/-- `_check_iframes` (scraper.py 410-425), applied to the per-iframe pairs of
`src` (browser-resolved property) and `data-src` (verbatim attribute): the
first value passing `_is_stream_url` is returned as-is. -/
def scraperCheckIframes :
    List (Option (List Char) × Option (List Char)) → Option (List Char)
  | [] => none
  | (src, dataSrc) :: rest =>
    match src with
    | some s =>
      if scraperIsStreamUrl s then some s
      else
        match dataSrc with
        | some d => if scraperIsStreamUrl d then some d else scraperCheckIframes rest
        | none => scraperCheckIframes rest
    | none =>
      match dataSrc with
      | some d => if scraperIsStreamUrl d then some d else scraperCheckIframes rest
      | none => scraperCheckIframes rest

/-- `_check_video_elements` (scraper.py 382-408), applied to the ordered
candidate values it reads (`src`, nested `source` tags, `currentSrc`): the
first candidate passing `_is_stream_url` is returned. -/
def scraperCheckVideoElements (cands : List (List Char)) : Option (List Char) :=
  cands.find? scraperIsStreamUrl

/-- `_check_javascript_sources` (scraper.py 450-467): each non-null script
result passing `_is_stream_url` is tagged `javascript`, verbatim. -/
def scraperCheckJavascriptSources (results : List (Option (List Char))) :
    List StreamSource :=
  results.filterMap (fun r =>
    match r with
    | some v => if scraperIsStreamUrl v then some ("javascript".toList, v) else none
    | none => none)

/-- `extract_stream_url_enhanced` (scraper.py 347-380): the five detectors
run in order, their outputs are concatenated, and `_select_best_stream`
picks the winner. -/
def scraperExtractStreamUrlEnhanced (videoCands : List (List Char))
    (iframes : List (Option (List Char) × Option (List Char)))
    (m3u8Captures : List (List Char)) (jsResults : List (Option (List Char)))
    (dataVals : List (List Char)) (pageUrl : List Char) : Option (List Char) :=
  let sources :=
    (match scraperCheckVideoElements videoCands with
      | some v => [("video_element".toList, v)]
      | none => [])
    ++ (match scraperCheckIframes iframes with
      | some v => [("iframe".toList, v)]
      | none => [])
    ++ scraperCheckM3u8Sources pageUrl m3u8Captures
    ++ scraperCheckJavascriptSources jsResults
    ++ scraperCheckDataAttributes dataVals
  scraperSelectBestStream sources

/-- C8.  Counterexample: a root-relative `data-src` value passes
`_is_stream_url` (it contains `live` and has 17 characters) and is emitted by
`_check_data_attributes` verbatim; with no other candidates,
`extract_stream_url_enhanced` selects it, so a root-relative URL — never
resolved against the page URL — becomes the record's `stream_url`. -/
theorem C8_counterexample :
    scraperCheckDataAttributes ["/live/stream.m3u8".toList]
      = [("data_attribute".toList, "/live/stream.m3u8".toList)] ∧
    isPrefixL ['/'] "/live/stream.m3u8".toList = true ∧
    scraperExtractStreamUrlEnhanced [] [] [] [] ["/live/stream.m3u8".toList]
      "https://www.camel1.live/game/match-x".toList
      = some "/live/stream.m3u8".toList := by
  decide

/-- C8 (amended).  Resolution is partial: homepage hrefs are prefixed with
the site origin when root-relative (so no emitted link is root-relative),
and `m3u8_pattern` captures starting with `/` are resolved with
`urljoin(page_url, capture)`; but `_check_data_attributes` and
`_check_iframes` emit their values verbatim, so a root-relative data
attribute or iframe value passes through unresolved. -/
theorem C8_amended_resolution :
    (∀ base captures c, c ∈ scraperCheckM3u8Sources base captures →
      c.1 = "m3u8_pattern".toList ∧ scraperIsStreamUrl c.2 = true ∧
      ∃ m ∈ captures,
        (isPrefixL ['/'] m = false ∧ c.2 = m) ∨
        (isPrefixL ['/'] m = true ∧ c.2 = urljoinRootRel base m)) ∧
    (∀ hrefs l, l ∈ findMatchLinksNorm hrefs →
      isPrefixL ['/'] l = false ∧
      (l ∈ hrefs ∨ ∃ h ∈ hrefs, isPrefixL ['/'] h = true ∧ l = siteOrigin ++ h)) ∧
    (∀ vals c, c ∈ scraperCheckDataAttributes vals →
      c.1 = "data_attribute".toList ∧ c.2 ∈ vals ∧
      scraperIsStreamUrl c.2 = true) ∧
    (∀ iframes v, scraperCheckIframes iframes = some v →
      scraperIsStreamUrl v = true ∧
      ∃ p ∈ iframes, p.1 = some v ∨ p.2 = some v) := by
  refine ⟨?_, ?_, ?_, ?_⟩
  · intro base captures c hc
    simp only [scraperCheckM3u8Sources, List.mem_filterMap] at hc
    obtain ⟨m, hm, hf⟩ := hc
    cases hp : isPrefixL ['/'] m with
    | true =>
      simp only [hp, if_true] at hf
      cases hs : scraperIsStreamUrl (urljoinRootRel base m) with
      | true =>
        rw [if_pos hs] at hf
        injection hf with h
        subst h
        exact ⟨rfl, hs, m, hm, Or.inr ⟨hp, rfl⟩⟩
      | false => rw [hs] at hf; simp at hf
    | false =>
      simp only [hp, if_false, Bool.false_eq_true] at hf
      cases hs : scraperIsStreamUrl m with
      | true =>
        rw [if_pos hs] at hf
        injection hf with h
        subst h
        exact ⟨rfl, hs, m, hm, Or.inl ⟨hp, rfl⟩⟩
      | false => rw [hs] at hf; simp at hf
  · intro hrefs l hl
    simp only [findMatchLinksNorm, List.mem_filterMap] at hl
    obtain ⟨href, hh, hf⟩ := hl
    cases hk : containsL "/game/".toList href || containsL "/match-".toList href with
    | false => rw [hk] at hf; simp at hf
    | true =>
      rw [hk] at hf
      simp only [if_true] at hf
      injection hf with h
      subst h
      cases hp : isPrefixL ['/'] href with
      | true => exact ⟨rfl, Or.inr ⟨href, hh, hp, rfl⟩⟩
      | false => exact ⟨hp, Or.inl hh⟩
  · intro vals c hc
    simp only [scraperCheckDataAttributes, List.mem_filterMap] at hc
    obtain ⟨v, hv, hf⟩ := hc
    cases hs : scraperIsStreamUrl v with
    | true =>
      rw [if_pos hs] at hf
      injection hf with h
      subst h
      exact ⟨rfl, hv, hs⟩
    | false => rw [hs] at hf; simp at hf
  · intro iframes
    induction iframes with
    | nil => intro v hv; simp [scraperCheckIframes] at hv
    | cons pair rest ih =>
      intro v hv
      obtain ⟨src, dataSrc⟩ := pair
      cases src with
      | some s =>
        cases hs : scraperIsStreamUrl s with
        | true =>
          simp only [scraperCheckIframes, hs, if_true] at hv
          have hsv : s = v := Option.some.inj hv
          exact ⟨hsv ▸ hs, (some s, dataSrc), List.mem_cons_self _ _, Or.inl hv⟩
        | false =>
          cases dataSrc with
          | some d =>
            cases hd : scraperIsStreamUrl d with
            | true =>
              simp only [scraperCheckIframes, hs, hd, if_true, Bool.false_eq_true,
                if_false] at hv
              have hdv : d = v := Option.some.inj hv
              exact ⟨hdv ▸ hd, (some s, some d), List.mem_cons_self _ _, Or.inr hv⟩
            | false =>
              simp only [scraperCheckIframes, hs, hd, Bool.false_eq_true,
                if_false] at hv
              obtain ⟨hsv, p, hp, hor⟩ := ih v hv
              exact ⟨hsv, p, List.mem_cons_of_mem _ hp, hor⟩
          | none =>
            simp only [scraperCheckIframes, hs, Bool.false_eq_true, if_false] at hv
            obtain ⟨hsv, p, hp, hor⟩ := ih v hv
            exact ⟨hsv, p, List.mem_cons_of_mem _ hp, hor⟩
      | none =>
        cases dataSrc with
        | some d =>
          cases hd : scraperIsStreamUrl d with
          | true =>
            simp only [scraperCheckIframes, hd, if_true] at hv
            have hdv : d = v := Option.some.inj hv
            exact ⟨hdv ▸ hd, (none, some d), List.mem_cons_self _ _, Or.inr hv⟩
          | false =>
            simp only [scraperCheckIframes, hd, Bool.false_eq_true, if_false] at hv
            obtain ⟨hsv, p, hp, hor⟩ := ih v hv
            exact ⟨hsv, p, List.mem_cons_of_mem _ hp, hor⟩
        | none =>
          simp only [scraperCheckIframes] at hv
          obtain ⟨hsv, p, hp, hor⟩ := ih v hv
          exact ⟨hsv, p, List.mem_cons_of_mem _ hp, hor⟩

/-- C8 witness: the amended theorem applied at a root-relative href (emitted
with the origin prefixed, hence no longer root-relative) and at a
root-relative data-attribute value (emitted verbatim). -/
theorem C8_amended_resolution_witness :
    isPrefixL ['/'] "https://www.camel1.live/game/match-liverpool".toList = false ∧
    scraperIsStreamUrl "/live/stream.m3u8".toList = true := by
  have h := C8_amended_resolution
  constructor
  · exact (h.2.1 ["/game/match-liverpool".toList]
      "https://www.camel1.live/game/match-liverpool".toList (by decide)).1
  · exact (h.2.2.1 ["/live/stream.m3u8".toList]
      ("data_attribute".toList, "/live/stream.m3u8".toList) (by decide)).2.2
